import Mathlib

/-!
Shallow embedding of the BookStack -> Wiki.js sync engine
(`src/wiki_sync.js`, class `BookStackToWikiJSSync`).

Pure computations (path resolution, content transformation) are translated
directly.  Stateful network operations (`syncAsset`, `syncPage`, the
hierarchy enrichment loop) are translated as explicit state-passing
functions over an environment that fixes the outcome of each external
call (download success, upload result, page-query outcome), and they
return the list of calls issued to the target wiki together with the
deltas applied to the persisted state and to the statistics counters.
-/

namespace WikiSync

/-! ### Persisted maps (`state.assetMap`, `state.pageMap`)

JavaScript objects keyed by numeric ids.  A lookup such as
`state.assetMap[assetId]` is modelled as an association-list lookup, and
the JS truthiness test `if (this.state.assetMap[assetId])` as `truthy`
(absent keys and the empty string are both falsy). -/

abbrev AssetMap : Type := List (Nat × String)

abbrev PageMap : Type := List (Nat × Nat)

def lookupAsset (m : AssetMap) (id : Nat) : Option String :=
  (List.find? (fun e => e.1 = id) m).map (fun e => e.2)

def truthy : Option String → Bool
  | none => false
  | some s => !s.isEmpty

/-- Model of `this.state.assetMap[assetId] = wikijsPath`: replace the
binding if the key exists, otherwise add it. -/
def insertAsset : AssetMap → Nat → String → AssetMap
  | [], id, v => [(id, v)]
  | (j, w) :: t, id, v =>
    if j = id then (id, v) :: t else (j, w) :: insertAsset t id v

def insertPage : PageMap → Nat → Nat → PageMap
  | [], id, v => [(id, v)]
  | (j, w) :: t, id, v =>
    if j = id then (id, v) :: t else (j, w) :: insertPage t id v

theorem lookupAsset_insertAsset (m : AssetMap) (id : Nat) (v : String) :
    lookupAsset (insertAsset m id v) id = some v := by
  induction m with
  | nil => simp [insertAsset, lookupAsset]
  | cons e t ih =>
    obtain ⟨j, w⟩ := e
    by_cases h : j = id
    · simp [insertAsset, h, lookupAsset]
    · simpa [insertAsset, h, lookupAsset, List.find?] using ih

/-! ### PathResolver (`getPagePath`, lines 505-517)

The JS code pushes `shelfSlug`, `bookSlug`, `chapterSlug` when truthy and
always pushes `slug`, joins with the configured separator, lower-cases,
then applies `.replace(/[^a-z0-9\/\-_]/g, '-')`. -/

def inPathClass (c : Char) : Bool :=
  ('a' ≤ c && c ≤ 'z') || ('0' ≤ c && c ≤ '9') || c = '/' || c = '-' || c = '_'

def sanitizeChar (c : Char) : Char :=
  if inPathClass c then c else '-'

/-- An enriched page, as built by `fetchBookStackHierarchy` (lines
207-224).  Ancestor slugs are optional (`undefined` is `none`; the JS
truthiness test also skips an empty-string slug). -/
structure Page where
  id : Nat
  name : String
  slug : String
  markdown : String
  html : String
  draft : Bool
  shelfSlug : Option String
  bookSlug : Option String
  chapterSlug : Option String
  created_by : Nat
  updated_by : Nat
  deriving Repr, DecidableEq

/-- The JS truthiness test `if (page.shelfSlug) parts.push(page.shelfSlug)`. -/
def pushIfTruthy (o : Option String) : List String :=
  match o with
  | some s => if s.isEmpty then [] else [s]
  | none => []

def getPagePath (sep : String) (p : Page) : String :=
  let parts : List String :=
    pushIfTruthy p.shelfSlug ++ pushIfTruthy p.bookSlug ++
      pushIfTruthy p.chapterSlug ++ [p.slug]
  -- `.toLowerCase()` then `.replace(/[^a-z0-9\/\-_]/g, '-')`, charwise
  String.mk ((((String.intercalate sep parts).data).map Char.toLower).map sanitizeChar)

/-- Modelled from the spec (refinement target for the path claim): the
resolved path joins the segments in the fixed order shelf, book, chapter,
page — each ancestor only when present, the page slug always the
mandatory final segment — lower-cases the joined string and replaces
every character outside the class a-z, 0-9, slash, underscore, hyphen
with a hyphen. -/
def resolveSpec (sep : String) (shelf book chapter : Option String)
    (pageSlug : String) : String :=
  let segments : List String :=
    pushIfTruthy shelf ++ pushIfTruthy book ++ pushIfTruthy chapter ++ [pageSlug]
  let joined := ((String.intercalate sep segments).data).map Char.toLower
  String.mk (joined.map (fun c => if inPathClass c then c else '-'))

/-! ### Page processing order (`syncPages`, lines 488-503)

`hierarchy.pages.sort((a, b) => aDepth - bDepth)` where the depth of a
page is `getPagePath(page).split('/').length`.  A JavaScript sort with a
consistent comparator yields an array sorted by that comparator (modern
engines use a stable merge sort), which is modelled with
`List.mergeSort`. -/

def pathDepth (sep : String) (p : Page) : Nat :=
  ((getPagePath sep p).splitOn "/").length

def syncPagesOrder (sep : String) (pages : List Page) : List Page :=
  List.mergeSort pages (fun a b => pathDepth sep a ≤ pathDepth sep b)

/-! ### AssetSyncEngine (`syncAsset`, lines 403-458)

The outcome of the two external calls is fixed by an environment:
`downloadOk` is the outcome of the BookStack GET (a failure throws before
the temporary file is written), and `uploadResult` is the outcome of
`uploadAssetToWikiJS` (`none` throws).  The function returns the value
`syncAsset` resolves to (`null` is `none`), the new `assetMap`, the
deltas to `stats.errors` and `stats.assetsUploaded`, the number of
download and upload network calls issued, and whether the temporary
local file was created and whether `fs.unlink` ran on it. -/

structure AssetEnv where
  dryRun : Bool
  downloadOk : Bool
  uploadResult : Option String
  deriving Repr, DecidableEq

structure AssetOutcome where
  locator : Option String
  assetMap : AssetMap
  errorsDelta : Nat
  uploadedDelta : Nat
  downloads : Nat
  uploads : Nat
  tempAcquired : Bool
  tempReleased : Bool
  deriving DecidableEq

def syncAsset (env : AssetEnv) (m : AssetMap) (assetId : Nat) : AssetOutcome :=
  if truthy (lookupAsset m assetId) then
    -- line 407: `if (this.state.assetMap[assetId]) return this.state.assetMap[assetId];`
    { locator := lookupAsset m assetId, assetMap := m, errorsDelta := 0,
      uploadedDelta := 0, downloads := 0, uploads := 0,
      tempAcquired := false, tempReleased := false }
  else if !env.downloadOk then
    -- lines 420-431 throw; caught at 453-457: log, `stats.errors++`, `return null`
    { locator := none, assetMap := m, errorsDelta := 1,
      uploadedDelta := 0, downloads := 1, uploads := 0,
      tempAcquired := false, tempReleased := false }
  else if env.dryRun then
    -- lines 434-448 with the upload skipped: wikijsPath stays '/placeholder.jpg'
    { locator := some "/placeholder.jpg",
      assetMap := insertAsset m assetId "/placeholder.jpg", errorsDelta := 0,
      uploadedDelta := 1, downloads := 1, uploads := 0,
      tempAcquired := true, tempReleased := true }
  else
    match env.uploadResult with
    | none =>
      -- `uploadAssetToWikiJS` throws; caught at 453-457 with no `fs.unlink`
      { locator := none, assetMap := m, errorsDelta := 1,
        uploadedDelta := 0, downloads := 1, uploads := 1,
        tempAcquired := true, tempReleased := false }
    | some loc =>
      -- lines 444-451: record the mapping, count, unlink, return the path
      { locator := some loc, assetMap := insertAsset m assetId loc,
        errorsDelta := 0, uploadedDelta := 1, downloads := 1, uploads := 1,
        tempAcquired := true, tempReleased := true }

/-- Repeated `syncAsset` calls for one asset id, accumulating the total
number of download and upload network calls. -/
structure SeqOutcome where
  assetMap : AssetMap
  downloads : Nat
  uploads : Nat
  deriving DecidableEq

def syncAssetSeq (assetId : Nat) : List AssetEnv → AssetMap → SeqOutcome
  | [], m => { assetMap := m, downloads := 0, uploads := 0 }
  | env :: rest, m =>
    let o := syncAsset env m assetId
    let r := syncAssetSeq assetId rest o.assetMap
    { assetMap := r.assetMap, downloads := o.downloads + r.downloads,
      uploads := o.uploads + r.uploads }

/-! ### Persisted state (`loadState`/`saveState`, lines 735-749)

`saveState` stamps `lastSync` and serialises the whole `state` record —
including `assetMap` — to durable storage; the persisted record is the
state itself with `lastSync` set. -/

structure SyncState where
  lastSync : Option String
  pageMap : PageMap
  assetMap : AssetMap
  userMap : List (Nat × Nat)
  deriving DecidableEq

def saveState (now : String) (st : SyncState) : SyncState :=
  { st with lastSync := some now }

/-! ### HierarchyLoader enrichment (`fetchBookStackHierarchy`, lines 195-232)

The already-fetched shelf/book/chapter collections are id/slug records;
the per-page detail fetch `GET /pages/id` is an oracle `detail` (`none`
throws).  The loop skips drafts unless `includeDrafts` is set, and on a
detail-fetch failure the `catch` at lines 229-231 only logs — it neither
re-raises nor touches a counter.  The second component of the result is
the delta applied to `stats.errors` by this loop. -/

structure NodeRef where
  id : Nat
  slug : String
  deriving Repr, DecidableEq

structure RawPage where
  id : Nat
  name : String
  slug : String
  draft : Bool
  book_id : Nat
  shelf_id : Option Nat
  chapter_id : Option Nat
  deriving Repr, DecidableEq

structure PageDetail where
  markdown : String
  html : String
  created_by : Nat
  updated_by : Nat
  deriving Repr, DecidableEq

/-- Lines 207-224: build the enriched page from the listing entry and the
detail response.  `markdown` is `pageDetail.markdown || pageDetail.html
|| ''`; `bookSlug` is `books.find(...)?.slug || 'uncategorized'`;
`shelfSlug` and `chapterSlug` stay undefined when no ancestor matches. -/
def enrichPage (shelves books chapters : List NodeRef) (p : RawPage)
    (d : PageDetail) : Page :=
  { id := p.id
    name := p.name
    slug := p.slug
    markdown := if d.markdown.isEmpty then d.html else d.markdown
    html := d.html
    draft := p.draft
    shelfSlug :=
      match p.shelf_id with
      | none => none
      | some sid => (List.find? (fun s => s.id = sid) shelves).map (fun s => s.slug)
    bookSlug :=
      some (match List.find? (fun b => b.id = p.book_id) books with
            | some b => if b.slug.isEmpty then "uncategorized" else b.slug
            | none => "uncategorized")
    chapterSlug :=
      match p.chapter_id with
      | none => none
      | some cid => (List.find? (fun c => c.id = cid) chapters).map (fun c => c.slug)
    created_by := d.created_by
    updated_by := d.updated_by }

/-- The `for (const page of pages)` enrichment loop: returns the enriched
pages pushed into `hierarchy.pages` and the delta to `stats.errors`. -/
def fetchEnrichPages (includeDrafts : Bool) (detail : Nat → Option PageDetail)
    (shelves books chapters : List NodeRef) : List RawPage → List Page × Nat
  | [] => ([], 0)
  | p :: rest =>
    let r := fetchEnrichPages includeDrafts detail shelves books chapters rest
    if !includeDrafts && p.draft then r
    else
      match detail p.id with
      | none => r
      | some d => (enrichPage shelves books chapters p d :: r.1, r.2)

/-! ### ContentTransformer (`transformContent`, lines 572-608)

`content.replace(regex, fn)` with a global regex scans the original
string left to right; at each position it either matches (the callback's
result is emitted and scanning resumes after the match) or moves one
character forward.  Both regexes are character-class based, so greedy
matching coincides with maximal-munch `takeWhile`.  The scan is written
with an explicit fuel equal to the input length, which suffices because
every step consumes at least one character; fuel 0 returns the remaining
input unchanged, which is also what a matchless scan produces. -/

def startsWithChars : List Char → List Char → Bool
  | _, [] => true
  | [], _ :: _ => false
  | a :: as, b :: bs => a = b && startsWithChars as bs

/-- JS `hay.includes(needle)`. -/
def includesChars : List Char → List Char → Bool
  | [], needle => needle.isEmpty
  | a :: t, needle => startsWithChars (a :: t) needle || includesChars t needle

def strIncludes (hay needle : String) : Bool :=
  includesChars hay.data needle.data

def expectChar (c : Char) : List Char → Option (List Char)
  | [] => none
  | x :: xs => if x = c then some xs else none

def expectLit : List Char → List Char → Option (List Char)
  | [], cs => some cs
  | _ :: _, [] => none
  | l :: ls, c :: cs => if c = l then expectLit ls cs else none

def galleryLit : List Char := "/uploads/images/gallery/".data

def attachLit : List Char := "/attachments/".data

/-- A match of `/!\[([^\]]*)\]\(\/uploads\/images\/gallery\/[^\/]+\/([^)]+)\)/`
at the head of the input: the alt text, the gallery date segment, the
captured filename, and the input remaining after the match. -/
structure ImgMatch where
  alt : List Char
  seg : List Char
  fname : List Char
  after : List Char
  deriving Repr, DecidableEq

def matchImageAt (cs : List Char) : Option ImgMatch :=
  match expectChar '!' cs with
  | none => none
  | some r1 =>
    match expectChar '[' r1 with
    | none => none
    | some r2 =>
      let alt := r2.takeWhile (fun c => c ≠ ']')
      match expectChar ']' (r2.dropWhile (fun c => c ≠ ']')) with
      | none => none
      | some r3 =>
        match expectChar '(' r3 with
        | none => none
        | some r4 =>
          match expectLit galleryLit r4 with
          | none => none
          | some r5 =>
            let seg := r5.takeWhile (fun c => c ≠ '/')
            if seg.isEmpty then none
            else
              match expectChar '/' (r5.dropWhile (fun c => c ≠ '/')) with
              | none => none
              | some r6 =>
                let fname := r6.takeWhile (fun c => c ≠ ')')
                if fname.isEmpty then none
                else
                  match expectChar ')' (r6.dropWhile (fun c => c ≠ ')')) with
                  | none => none
                  | some r7 => some ⟨alt, seg, fname, r7⟩

/-- The original matched text (returned unchanged when no mapping exists). -/
def imgMatched (im : ImgMatch) : List Char :=
  ['!', '['] ++ im.alt ++ [']', '('] ++ galleryLit ++ im.seg ++ ['/'] ++
    im.fname ++ [')']

/-- The rewritten reference `![alt](wikijsPath)`. -/
def imgReplace (alt : List Char) (loc : String) : List Char :=
  ['!', '['] ++ alt ++ [']', '('] ++ loc.data ++ [')']

/-- Integer-like keys of a JS object enumerate in ascending numeric
order; `Object.entries` therefore lists the asset map sorted by id. -/
def insertSortedEntry (e : Nat × String) : List (Nat × String) → List (Nat × String)
  | [] => [e]
  | f :: t => if e.1 ≤ f.1 then e :: f :: t else f :: insertSortedEntry e t

def entriesByKey : List (Nat × String) → List (Nat × String)
  | [] => []
  | e :: t => insertSortedEntry e (entriesByKey t)

/-- Line 583: `Object.entries(this.state.assetMap).find(([id, assetPath])
=> assetPath && assetPath.includes(filename))`. -/
def findImageEntry (m : AssetMap) (fname : String) : Option (Nat × String) :=
  List.find? (fun e => !e.2.isEmpty && strIncludes e.2 fname) (entriesByKey m)

def replaceImagesGo (m : AssetMap) : Nat → List Char → List Char
  | 0, cs => cs
  | _ + 1, [] => []
  | fuel + 1, c :: rest =>
    match matchImageAt (c :: rest) with
    | some im =>
      (match findImageEntry m (String.mk im.fname) with
       | some e => imgReplace im.alt e.2
       | none => imgMatched im) ++ replaceImagesGo m fuel im.after
    | none => c :: replaceImagesGo m fuel rest

def replaceImages (m : AssetMap) (cs : List Char) : List Char :=
  replaceImagesGo m cs.length cs

/-- A match of `/\[([^\]]+)\]\(\/attachments\/(\d+)\)/` at the head of
the input. -/
structure AttMatch where
  name : List Char
  digits : List Char
  after : List Char
  deriving Repr, DecidableEq

def matchAttachAt (cs : List Char) : Option AttMatch :=
  match expectChar '[' cs with
  | none => none
  | some r1 =>
    let name := r1.takeWhile (fun c => c ≠ ']')
    if name.isEmpty then none
    else
      match expectChar ']' (r1.dropWhile (fun c => c ≠ ']')) with
      | none => none
      | some r2 =>
        match expectChar '(' r2 with
        | none => none
        | some r3 =>
          match expectLit attachLit r3 with
          | none => none
          | some r4 =>
            let digits := r4.takeWhile Char.isDigit
            if digits.isEmpty then none
            else
              match expectChar ')' (r4.dropWhile Char.isDigit) with
              | none => none
              | some r5 => some ⟨name, digits, r5⟩

def attMatched (am : AttMatch) : List Char :=
  ['['] ++ am.name ++ [']', '('] ++ attachLit ++ am.digits ++ [')']

def attReplace (name : List Char) (loc : String) : List Char :=
  ['['] ++ name ++ [']', '('] ++ loc.data ++ [')']

/-- Line 599: `this.state.assetMap[attachmentId]` where `attachmentId` is
the captured digit string.  A JS object lookup by string hits a
numeric-keyed entry only when the string is the canonical decimal form of
the key. -/
def lookupAssetStr (m : AssetMap) (s : String) : Option String :=
  (List.find? (fun e => toString e.1 = s) m).map (fun e => e.2)

def replaceAttachGo (m : AssetMap) : Nat → List Char → List Char
  | 0, cs => cs
  | _ + 1, [] => []
  | fuel + 1, c :: rest =>
    match matchAttachAt (c :: rest) with
    | some am =>
      (match lookupAssetStr m (String.mk am.digits) with
       | some loc => if loc.isEmpty then attMatched am else attReplace am.name loc
       | none => attMatched am) ++ replaceAttachGo m fuel am.after
    | none => c :: replaceAttachGo m fuel rest

def replaceAttach (m : AssetMap) (cs : List Char) : List Char :=
  replaceAttachGo m cs.length cs

/-- Lines 572-608: `transformContent(markdown, html)`.  `content` is
`markdown || html || ''`; empty content returns `' '`; otherwise the
image pass runs first and the attachment pass runs on its output. -/
def transformContent (m : AssetMap) (markdown html : String) : String :=
  let content := if markdown.isEmpty then html else markdown
  if content.isEmpty then " "
  else String.mk (replaceAttach m (replaceImages m content.data))

/-- True when some suffix of the input matches the image regex. -/
def hasImageMatchAux : List Char → Bool
  | [] => false
  | c :: rest => (matchImageAt (c :: rest)).isSome || hasImageMatchAux rest

/-- True when some suffix of the input matches the attachment regex. -/
def hasAttachMatchAux : List Char → Bool
  | [] => false
  | c :: rest => (matchAttachAt (c :: rest)).isSome || hasAttachMatchAux rest

/-! ### PageUpsertEngine (`findWikiJSPage` lines 610-642, `syncPage` lines 519-570)

The target-wiki query can find a page, report it missing, or fail in any
of the three ways handled by `findWikiJSPage` (GraphQL errors in the
response body, an HTTP 404, or any other transport error); all failure
shapes return `null`, exactly like "not found".  User-identity
resolution (`mapUser`) goes to the BookStack side and is abstracted as a
total function in the environment.  `syncPage` records every call issued
to the Target Wiki Port. -/

inductive FindOutcome where
  | found (id : Nat)
  | notFound
  | gqlErrors
  | httpError404
  | httpErrorOther
  deriving Repr, DecidableEq

/-- Lines 610-642: result of the find-page-by-path query as seen by
`syncPage` (`none` is JS `null`). -/
def findWikiJSPage : FindOutcome → Option Nat
  | .found id => some id
  | .notFound => none
  | .gqlErrors => none
  | .httpError404 => none
  | .httpErrorOther => none

inductive WikiCall where
  | findPage (path : String)
  | createPage (path title content : String) (published : Bool)
      (authorId creatorId : Nat)
  | updatePage (pageId : Nat) (title content : String) (published : Bool)
      (authorId : Nat)
  deriving Repr, DecidableEq

def isMutating : WikiCall → Bool
  | .findPage _ => false
  | .createPage _ _ _ _ _ _ => true
  | .updatePage _ _ _ _ _ => true

structure PageEnv where
  sep : String
  dryRun : Bool
  resolveUser : Nat → Nat
  findOutcome : FindOutcome
  createResult : Option Nat
  updateOk : Bool

structure PageSyncResult where
  pageMap : PageMap
  createdDelta : Nat
  updatedDelta : Nat
  errorsDelta : Nat
  calls : List WikiCall
  path : String
  transformed : String

def syncPage (env : PageEnv) (pm : PageMap) (am : AssetMap) (page : Page) :
    PageSyncResult :=
  let pagePath := getPagePath env.sep page
  let transformed := transformContent am page.markdown page.html
  let createdBy := env.resolveUser page.created_by
  let updatedBy := env.resolveUser page.updated_by
  match findWikiJSPage env.findOutcome with
  | some pid =>
    if env.dryRun then
      -- lines 533-545 with the mutation skipped; `stats.pagesUpdated++` still runs
      { pageMap := pm, createdDelta := 0, updatedDelta := 1, errorsDelta := 0,
        calls := [.findPage pagePath], path := pagePath, transformed }
    else if env.updateOk then
      { pageMap := pm, createdDelta := 0, updatedDelta := 1, errorsDelta := 0,
        calls := [.findPage pagePath,
                  .updatePage pid page.name transformed (!page.draft) updatedBy],
        path := pagePath, transformed }
    else
      -- `updateWikiJSPage` threw: caught at 566-569 before `pagesUpdated++`
      { pageMap := pm, createdDelta := 0, updatedDelta := 0, errorsDelta := 1,
        calls := [.findPage pagePath,
                  .updatePage pid page.name transformed (!page.draft) updatedBy],
        path := pagePath, transformed }
  | none =>
    if env.dryRun then
      -- lines 547-564 with the mutation skipped; `stats.pagesCreated++` still runs
      { pageMap := pm, createdDelta := 1, updatedDelta := 0, errorsDelta := 0,
        calls := [.findPage pagePath], path := pagePath, transformed }
    else
      match env.createResult with
      | some newId =>
        -- lines 550-560: create, then `pageMap[page.id] = newPage.id`
        { pageMap := insertPage pm page.id newId, createdDelta := 1,
          updatedDelta := 0, errorsDelta := 0,
          calls := [.findPage pagePath,
                    .createPage pagePath page.name transformed (!page.draft)
                      createdBy createdBy],
          path := pagePath, transformed }
      | none =>
        -- `createWikiJSPage` threw: caught at 566-569, `pageMap` untouched
        { pageMap := pm, createdDelta := 0, updatedDelta := 0, errorsDelta := 1,
          calls := [.findPage pagePath,
                    .createPage pagePath page.name transformed (!page.draft)
                      createdBy createdBy],
          path := pagePath, transformed }

/-! ## Theorems -/

theorem all_inPathClass_sanitize (l : List Char) :
    (l.map sanitizeChar).all inPathClass = true := by
  induction l with
  | nil => rfl
  | cons c t ih =>
    simp only [List.map_cons, List.all_cons, ih, Bool.and_true]
    by_cases h : inPathClass c = true
    · simp [sanitizeChar, h]
    · simp only [sanitizeChar, h, if_false, Bool.false_eq_true, if_neg]
      decide

/-- C2: the resolved path is a pure, deterministic function of the
shelf/book/chapter/page slugs and the configured separator alone.  It
coincides with the spec-side resolver (fixed segment order shelf, book,
chapter, page, ancestors only when present, page slug always last,
lower-case then hyphen-replace everything outside a-z, 0-9, slash,
underscore, hyphen); every character of the result lies in that class;
and two pages with equal slug inputs resolve to equal paths. -/
theorem getPagePath_correct (sep : String) (p : Page) :
    getPagePath sep p = resolveSpec sep p.shelfSlug p.bookSlug p.chapterSlug p.slug ∧
    (getPagePath sep p).data.all inPathClass = true ∧
    (∀ q : Page, p.shelfSlug = q.shelfSlug → p.bookSlug = q.bookSlug →
      p.chapterSlug = q.chapterSlug → p.slug = q.slug →
      getPagePath sep p = getPagePath sep q) := by
  refine ⟨rfl, ?_, ?_⟩
  · exact all_inPathClass_sanitize _
  · intro q h1 h2 h3 h4
    simp only [getPagePath, h1, h2, h3, h4]

/-- Witness for the path-resolution theorem at the spec's own example:
slug `Getting Started!` under book `Docs_v2` resolves to
`docs_v2/getting-started-`. -/
theorem getPagePath_correct_witness :
    getPagePath "/"
        { id := 1, name := "Getting Started!", slug := "Getting Started!",
          markdown := "", html := "", draft := false, shelfSlug := none,
          bookSlug := some "Docs_v2", chapterSlug := none,
          created_by := 1, updated_by := 1 } =
      resolveSpec "/" none (some "Docs_v2") none "Getting Started!" ∧
    getPagePath "/"
        { id := 1, name := "Getting Started!", slug := "Getting Started!",
          markdown := "", html := "", draft := false, shelfSlug := none,
          bookSlug := some "Docs_v2", chapterSlug := none,
          created_by := 1, updated_by := 1 } = "docs_v2/getting-started-" ∧
    getPagePath "/"
        { id := 1, name := "Getting Started!", slug := "Getting Started!",
          markdown := "", html := "", draft := false, shelfSlug := none,
          bookSlug := some "Docs_v2", chapterSlug := none,
          created_by := 1, updated_by := 1 } =
      getPagePath "/"
        { id := 2, name := "other", slug := "Getting Started!",
          markdown := "x", html := "y", draft := true, shelfSlug := none,
          bookSlug := some "Docs_v2", chapterSlug := none,
          created_by := 3, updated_by := 4 } := by
  refine ⟨(getPagePath_correct "/" _).1, by decide, ?_⟩
  exact (getPagePath_correct "/"
    { id := 1, name := "Getting Started!", slug := "Getting Started!",
      markdown := "", html := "", draft := false, shelfSlug := none,
      bookSlug := some "Docs_v2", chapterSlug := none,
      created_by := 1, updated_by := 1 }).2.2
    { id := 2, name := "other", slug := "Getting Started!",
      markdown := "x", html := "y", draft := true, shelfSlug := none,
      bookSlug := some "Docs_v2", chapterSlug := none,
      created_by := 3, updated_by := 4 } rfl rfl rfl rfl

/-- C4: the order in which `syncPages` processes pages is non-decreasing
in resolved-path depth — no page comes before a page of strictly smaller
depth. -/
theorem syncPagesOrder_sorted (sep : String) (pages : List Page) :
    List.Pairwise (fun a b => pathDepth sep a ≤ pathDepth sep b)
      (syncPagesOrder sep pages) := by
  have htrans : ∀ a b c : Page,
      decide (pathDepth sep a ≤ pathDepth sep b) = true →
      decide (pathDepth sep b ≤ pathDepth sep c) = true →
      decide (pathDepth sep a ≤ pathDepth sep c) = true := by
    intro a b c h1 h2
    simp only [decide_eq_true_eq] at h1 h2 ⊢
    omega
  have htotal : ∀ a b : Page,
      (decide (pathDepth sep a ≤ pathDepth sep b) ||
        decide (pathDepth sep b ≤ pathDepth sep a)) = true := by
    intro a b
    simp only [Bool.or_eq_true, decide_eq_true_eq]
    omega
  have h := List.sorted_mergeSort htrans htotal pages
  exact h.imp (fun hab => by simpa using hab)

theorem syncAsset_cached (env : AssetEnv) (m : AssetMap) (id : Nat)
    (h : truthy (lookupAsset m id) = true) :
    syncAsset env m id =
      { locator := lookupAsset m id, assetMap := m, errorsDelta := 0,
        uploadedDelta := 0, downloads := 0, uploads := 0,
        tempAcquired := false, tempReleased := false } := by
  simp [syncAsset, h]

theorem syncAssetSeq_cached (id : Nat) (envs : List AssetEnv) (m : AssetMap)
    (h : truthy (lookupAsset m id) = true) :
    syncAssetSeq id envs m = { assetMap := m, downloads := 0, uploads := 0 } := by
  induction envs with
  | nil => rfl
  | cons e es ih => simp [syncAssetSeq, syncAsset_cached e m id h, ih]

theorem syncAsset_success_truthy (env : AssetEnv) (m : AssetMap) (id : Nat)
    (l : String) (hl : (syncAsset env m id).locator = some l) (hne : l ≠ "") :
    truthy (lookupAsset (syncAsset env m id).assetMap id) = true := by
  by_cases hc : truthy (lookupAsset m id) = true
  · rw [syncAsset_cached env m id hc] at hl ⊢
    exact hc
  · by_cases hd : env.downloadOk = true
    · by_cases hdry : env.dryRun = true
      · have hmap : (syncAsset env m id).assetMap =
            insertAsset m id "/placeholder.jpg" := by
          simp [syncAsset, hc, hd, hdry]
        rw [hmap, lookupAsset_insertAsset]
        decide
      · cases hu : env.uploadResult with
        | none => simp [syncAsset, hc, hd, hdry, hu] at hl
        | some loc =>
          have hmap : (syncAsset env m id).assetMap = insertAsset m id loc := by
            simp [syncAsset, hc, hd, hdry, hu]
          have hloceq : loc = l := by
            have hx : (syncAsset env m id).locator = some loc := by
              simp [syncAsset, hc, hd, hdry, hu]
            rw [hx] at hl
            exact Option.some.inj hl
          rw [hmap, lookupAsset_insertAsset]
          subst hloceq
          simp only [truthy, Bool.not_eq_true']
          rw [Bool.eq_false_iff]
          intro hx
          exact hne ((String.isEmpty_iff loc).mp hx)
    · simp [syncAsset, hc, hd] at hl

/-- C1 (amended): if `assetMap[asset.id]` holds a (truthy) locator,
`syncAsset` returns it immediately with zero downloads and zero uploads
and leaves the state unchanged; and once any call has recorded a
non-empty locator for an asset id, every later call for that id performs
zero downloads and zero uploads — so at most one call ever reaches the
network for a given id *provided a locator was recorded*.  The original
claim's unconditional "at most one download and one upload across any
number of calls" fails when a call errors before recording a locator
(see the counterexample). -/
theorem syncAsset_idempotent (env : AssetEnv) (envs : List AssetEnv)
    (m : AssetMap) (id : Nat) :
    (truthy (lookupAsset m id) = true →
      (syncAsset env m id).locator = lookupAsset m id ∧
      (syncAsset env m id).downloads = 0 ∧ (syncAsset env m id).uploads = 0 ∧
      (syncAsset env m id).assetMap = m) ∧
    (∀ l : String, (syncAsset env m id).locator = some l → l ≠ "" →
      syncAssetSeq id envs (syncAsset env m id).assetMap =
        { assetMap := (syncAsset env m id).assetMap, downloads := 0,
          uploads := 0 } ∧
      (syncAsset env m id).downloads ≤ 1 ∧ (syncAsset env m id).uploads ≤ 1) := by
  constructor
  · intro h
    rw [syncAsset_cached env m id h]
    exact ⟨rfl, rfl, rfl, rfl⟩
  · intro l hl hne
    refine ⟨syncAssetSeq_cached id envs _ (syncAsset_success_truthy env m id l hl hne), ?_, ?_⟩
    · by_cases hc : truthy (lookupAsset m id) = true
      · rw [syncAsset_cached env m id hc]
        simp
      · simp only [syncAsset, hc, Bool.false_eq_true, if_false]
        split
        · simp
        · split
          · simp
          · split <;> simp
    · by_cases hc : truthy (lookupAsset m id) = true
      · rw [syncAsset_cached env m id hc]
        simp
      · simp only [syncAsset, hc, Bool.false_eq_true, if_false]
        split
        · simp
        · split
          · simp
          · split <;> simp

/-- Witness for the amended idempotence theorem: on a map already holding
the locator `/a.png` for asset 5, a further call returns it with zero
network traffic, and after a successful first sync any number of later
calls stay at zero. -/
theorem syncAsset_idempotent_witness :
    (syncAsset ⟨false, true, some "/b.png"⟩ [(5, "/a.png")] 5).locator =
        some "/a.png" ∧
    (syncAsset ⟨false, true, some "/b.png"⟩ [(5, "/a.png")] 5).downloads = 0 ∧
    syncAssetSeq 5 [⟨false, true, some "/c.png"⟩, ⟨true, true, none⟩]
        (syncAsset ⟨false, true, some "/b.png"⟩ [] 5).assetMap =
      { assetMap := [(5, "/b.png")], downloads := 0, uploads := 0 } := by
  have h1 := (syncAsset_idempotent ⟨false, true, some "/b.png"⟩ [] [(5, "/a.png")] 5).1
    (by decide)
  have h2 := ((syncAsset_idempotent ⟨false, true, some "/b.png"⟩
      [⟨false, true, some "/c.png"⟩, ⟨true, true, none⟩] [] 5).2
    "/b.png" (by decide) (by decide)).1
  refine ⟨?_, h1.2.1, ?_⟩
  · rw [h1.1]; decide
  · rw [h2]; decide

/-- C1 counterexample: asset 5 is never in the map because its first sync
fails at the upload step, so a second call downloads (and uploads) again —
two downloads in total across the two calls, refuting the claim that at
most one download occurs across any number of calls per asset id. -/
theorem syncAsset_two_downloads :
    ¬ ((syncAssetSeq 5 [⟨false, true, none⟩, ⟨false, true, some "/a.png"⟩]
        []).downloads ≤ 1) := by
  decide

/-- C6 (amended): on a download or upload failure for an uncached asset,
`syncAsset` increments the error count by one, leaves the asset map
unchanged, and returns `null` (no locator) — not a fixed "missing asset"
placeholder path — and the run continues (the call resolves instead of
throwing). -/
theorem syncAsset_failure (env : AssetEnv) (m : AssetMap) (id : Nat)
    (hcached : truthy (lookupAsset m id) = false)
    (hfail : env.downloadOk = false ∨
      (env.dryRun = false ∧ env.uploadResult = none)) :
    (syncAsset env m id).locator = none ∧
    (syncAsset env m id).errorsDelta = 1 ∧
    (syncAsset env m id).assetMap = m := by
  rcases hfail with hdl | ⟨hdry, hup⟩
  · simp [syncAsset, hcached, hdl]
  · by_cases hdl : env.downloadOk = true
    · simp [syncAsset, hcached, hdl, hdry, hup]
    · simp [syncAsset, hcached, hdl]

/-- Witness for the failure-path theorem at a concrete upload failure. -/
theorem syncAsset_failure_witness :
    truthy (lookupAsset [] 1) = false ∧
    (syncAsset ⟨false, true, none⟩ [] 1).errorsDelta = 1 := by
  refine ⟨by decide, (syncAsset_failure ⟨false, true, none⟩ [] 1 (by decide)
    (Or.inr ⟨rfl, rfl⟩)).2.1⟩

/-- C6 counterexample: a concrete upload failure makes `syncAsset`
resolve to `null` (`none`), not to any sentinel locator path, refuting
"returns a sentinel/placeholder locator". -/
theorem syncAsset_failure_returns_null :
    (syncAsset ⟨false, true, none⟩ [] 2).locator = none ∧
    (syncAsset ⟨false, true, none⟩ [] 2).errorsDelta = 1 := by
  decide

/-- C7 (amended): when `syncAsset` creates the temporary local file, the
file is deleted exactly on the non-error exits (success and dry-run); on
a failure after acquisition (an upload error) the `catch` returns without
`fs.unlink`, so the temporary file is *not* released on every exit
path. -/
theorem syncAsset_tempfile (env : AssetEnv) (m : AssetMap) (id : Nat)
    (h : (syncAsset env m id).tempAcquired = true) :
    (syncAsset env m id).tempReleased = true ↔
      (syncAsset env m id).errorsDelta = 0 := by
  by_cases hc : truthy (lookupAsset m id) = true
  · rw [syncAsset_cached env m id hc] at h
    simp at h
  · by_cases hd : env.downloadOk = true
    · by_cases hdry : env.dryRun = true
      · simp [syncAsset, hc, hd, hdry]
      · cases hu : env.uploadResult with
        | none => simp [syncAsset, hc, hd, hdry, hu]
        | some loc => simp [syncAsset, hc, hd, hdry, hu]
    · simp [syncAsset, hc, hd] at h

/-- Witness for the temporary-file theorem on the success path. -/
theorem syncAsset_tempfile_witness :
    (syncAsset ⟨false, true, some "/a.png"⟩ [] 3).tempAcquired = true ∧
    ((syncAsset ⟨false, true, some "/a.png"⟩ [] 3).tempReleased = true ↔
      (syncAsset ⟨false, true, some "/a.png"⟩ [] 3).errorsDelta = 0) := by
  refine ⟨by decide, syncAsset_tempfile ⟨false, true, some "/a.png"⟩ [] 3 (by decide)⟩

/-- C7 counterexample: an upload failure acquires the temporary file and
exits through the `catch` without deleting it, refuting "released on
every exit path". -/
theorem syncAsset_temp_leak :
    (syncAsset ⟨false, true, none⟩ [] 3).tempAcquired = true ∧
    (syncAsset ⟨false, true, none⟩ [] 3).tempReleased = false := by
  decide

theorem fetchEnrichPages_errors_zero (inc : Bool) (det : Nat → Option PageDetail)
    (s b c : List NodeRef) (l : List RawPage) :
    (fetchEnrichPages inc det s b c l).2 = 0 := by
  induction l with
  | nil => rfl
  | cons p rest ih =>
    by_cases hskip : (!inc && p.draft) = true
    · simpa [fetchEnrichPages, hskip] using ih
    · cases hd : det p.id with
      | none => simpa [fetchEnrichPages, hskip, hd] using ih
      | some d => simpa [fetchEnrichPages, hskip, hd] using ih

theorem fetchEnrichPages_append (inc : Bool) (det : Nat → Option PageDetail)
    (s b c : List NodeRef) (l1 l2 : List RawPage) :
    (fetchEnrichPages inc det s b c (l1 ++ l2)).1 =
      (fetchEnrichPages inc det s b c l1).1 ++
        (fetchEnrichPages inc det s b c l2).1 := by
  induction l1 with
  | nil => simp [fetchEnrichPages]
  | cons p rest ih =>
    by_cases hskip : (!inc && p.draft) = true
    · simpa [fetchEnrichPages, hskip] using ih
    · cases hd : det p.id with
      | none => simpa [fetchEnrichPages, hskip, hd] using ih
      | some d => simpa [fetchEnrichPages, hskip, hd] using ih

theorem fetchEnrichPages_all_ok (inc : Bool) (det : Nat → Option PageDetail)
    (s b c : List NodeRef) (l : List RawPage)
    (h : ∀ q ∈ l, (det q.id).isSome = true ∧ q.draft = false) :
    (fetchEnrichPages inc det s b c l).1.length = l.length := by
  induction l with
  | nil => rfl
  | cons p rest ih =>
    obtain ⟨hp, hpd⟩ := h p (by simp)
    cases hd : det p.id with
    | none => rw [hd] at hp; simp at hp
    | some d =>
      have := ih (fun q hq => h q (by simp [hq]))
      simp [fetchEnrichPages, hpd, hd, this]

/-- C5 (amended): with the detail fetch failing for exactly one page `p`
among otherwise-successful, non-draft pages, hierarchy loading yields
N−1 enriched pages, the failing page is simply skipped with the other
pages enriched exactly as they would be without it — but the enrichment
`catch` only logs: the error counter is *not* incremented (its delta is
0, not 1 as the original claim states). -/
theorem fetchEnrichPages_partial_failure (inc : Bool)
    (det : Nat → Option PageDetail) (s b c : List NodeRef)
    (l1 l2 : List RawPage) (p : RawPage)
    (hp : det p.id = none) (_hpd : p.draft = false)
    (h : ∀ q ∈ l1 ++ l2, (det q.id).isSome = true ∧ q.draft = false) :
    (fetchEnrichPages inc det s b c (l1 ++ [p] ++ l2)).1.length =
        (l1 ++ [p] ++ l2).length - 1 ∧
    (fetchEnrichPages inc det s b c (l1 ++ [p] ++ l2)).1 =
        (fetchEnrichPages inc det s b c (l1 ++ l2)).1 ∧
    (fetchEnrichPages inc det s b c (l1 ++ [p] ++ l2)).2 = 0 := by
  have hsingle : (fetchEnrichPages inc det s b c [p]).1 = [] := by
    by_cases hskip : (!inc && p.draft) = true
    · simp [fetchEnrichPages, hskip]
    · simp [fetchEnrichPages, hskip, hp]
  have heq : (fetchEnrichPages inc det s b c (l1 ++ [p] ++ l2)).1 =
      (fetchEnrichPages inc det s b c (l1 ++ l2)).1 := by
    rw [fetchEnrichPages_append inc det s b c (l1 ++ [p]) l2,
      fetchEnrichPages_append inc det s b c l1 [p],
      fetchEnrichPages_append inc det s b c l1 l2, hsingle]
    simp
  refine ⟨?_, heq, fetchEnrichPages_errors_zero inc det s b c _⟩
  rw [heq, fetchEnrichPages_append inc det s b c l1 l2]
  have h1 := fetchEnrichPages_all_ok inc det s b c l1
    (fun q hq => h q (by simp [hq]))
  have h2 := fetchEnrichPages_all_ok inc det s b c l2
    (fun q hq => h q (by simp [hq]))
  simp [h1, h2]

/-- Witness for the partial-failure theorem: two non-draft pages, the
detail fetch failing for the second. -/
theorem fetchEnrichPages_partial_failure_witness :
    (fetchEnrichPages false
        (fun i => if i = 2 then none else some ⟨"md", "h", 1, 1⟩) [] [] []
        ([⟨1, "a", "s1", false, 1, none, none⟩] ++
          [⟨2, "b", "s2", false, 1, none, none⟩] ++ [])).1.length = 1 := by
  have h := (fetchEnrichPages_partial_failure false
      (fun i => if i = 2 then none else some ⟨"md", "h", 1, 1⟩) [] [] []
      [⟨1, "a", "s1", false, 1, none, none⟩] []
      ⟨2, "b", "s2", false, 1, none, none⟩ (by decide) rfl
      (by intro q hq; simp at hq; subst hq; exact ⟨rfl, rfl⟩)).1
  simpa using h

/-- C5 counterexample: in that same concrete run (two non-draft pages,
one failing detail fetch) the error-counter delta of the enrichment loop
is 0, not 1: the `catch` at lines 229-231 only logs, refuting "the error
counter is incremented by exactly 1". -/
theorem fetchEnrichPages_counter_not_incremented :
    (fetchEnrichPages false
        (fun i => if i = 2 then none else some ⟨"md", "h", 1, 1⟩) [] [] []
        [⟨1, "a", "s1", false, 1, none, none⟩,
         ⟨2, "b", "s2", false, 1, none, none⟩]).1.length = 1 ∧
    ¬ ((fetchEnrichPages false
        (fun i => if i = 2 then none else some ⟨"md", "h", 1, 1⟩) [] [] []
        [⟨1, "a", "s1", false, 1, none, none⟩,
         ⟨2, "b", "s2", false, 1, none, none⟩]).2 = 1) := by
  constructor
  · rfl
  · decide

/-- C3: with dry-run disabled, a found page triggers an update carrying
title, transformed content, publish flag `!draft` and the updater
identity, leaving `pageMap` untouched; a query resolving to nothing —
including every query-failure shape, which `findWikiJSPage` maps to the
same `null` as "not found" — triggers a create carrying the same fields
with the creator identity (as both author and creator), and on create
success the returned target page id is recorded into
`pageMap[page.id]`. -/
theorem syncPage_upsert (env : PageEnv) (pm : PageMap) (am : AssetMap)
    (page : Page) (hdry : env.dryRun = false) :
    (∀ pid, env.findOutcome = .found pid →
      (syncPage env pm am page).calls =
        [.findPage (getPagePath env.sep page),
         .updatePage pid page.name (transformContent am page.markdown page.html)
           (!page.draft) (env.resolveUser page.updated_by)] ∧
      (syncPage env pm am page).pageMap = pm) ∧
    (findWikiJSPage env.findOutcome = none →
      (syncPage env pm am page).calls =
        [.findPage (getPagePath env.sep page),
         .createPage (getPagePath env.sep page) page.name
           (transformContent am page.markdown page.html) (!page.draft)
           (env.resolveUser page.created_by) (env.resolveUser page.created_by)] ∧
      (∀ nid, env.createResult = some nid →
        (syncPage env pm am page).pageMap = insertPage pm page.id nid) ∧
      (env.createResult = none → (syncPage env pm am page).pageMap = pm)) ∧
    (findWikiJSPage .notFound = none ∧ findWikiJSPage .gqlErrors = none ∧
      findWikiJSPage .httpError404 = none ∧
      findWikiJSPage .httpErrorOther = none) := by
  refine ⟨?_, ?_, rfl, rfl, rfl, rfl⟩
  · intro pid hf
    by_cases hup : env.updateOk = true
    · simp [syncPage, hf, findWikiJSPage, hdry, hup]
    · simp [syncPage, hf, findWikiJSPage, hdry, hup]
  · intro hf
    cases hc : env.createResult with
    | none => simp [syncPage, hf, hdry, hc]
    | some nid => simp [syncPage, hf, hdry, hc]

/-- Witness for the upsert theorem: a concrete page updated when found
(id 9) and created with its id recorded when the query fails. -/
theorem syncPage_upsert_witness :
    (syncPage ⟨"/", false, id, .found 9, some 4, true⟩ [] []
        { id := 3, name := "T", slug := "t", markdown := "body", html := "",
          draft := false, shelfSlug := none, bookSlug := some "b",
          chapterSlug := none, created_by := 1, updated_by := 2 }).pageMap =
      [] ∧
    (syncPage ⟨"/", false, id, .gqlErrors, some 4, true⟩ [] []
        { id := 3, name := "T", slug := "t", markdown := "body", html := "",
          draft := false, shelfSlug := none, bookSlug := some "b",
          chapterSlug := none, created_by := 1, updated_by := 2 }).pageMap =
      insertPage [] 3 4 := by
  constructor
  · exact ((syncPage_upsert ⟨"/", false, id, .found 9, some 4, true⟩ [] []
      { id := 3, name := "T", slug := "t", markdown := "body", html := "",
        draft := false, shelfSlug := none, bookSlug := some "b",
        chapterSlug := none, created_by := 1, updated_by := 2 } rfl).1 9 rfl).2
  · exact ((syncPage_upsert ⟨"/", false, id, .gqlErrors, some 4, true⟩ [] []
      { id := 3, name := "T", slug := "t", markdown := "body", html := "",
        draft := false, shelfSlug := none, bookSlug := some "b",
        chapterSlug := none, created_by := 1, updated_by := 2 } rfl).2.1
      rfl).2.1 4 rfl

/-- C9: with dry-run enabled no mutating call (create, update or asset
upload) reaches the Target Wiki Port — the only page-sync call is the
read-only find query and `syncAsset` issues zero uploads — while path
resolution and content transformation still execute and produce their
usual results. -/
theorem dryRun_no_mutations (env : PageEnv) (pm : PageMap) (am : AssetMap)
    (page : Page) (aenv : AssetEnv) (m : AssetMap) (assetId : Nat)
    (hdry : env.dryRun = true) (hadry : aenv.dryRun = true) :
    (syncPage env pm am page).calls.all (fun call => !isMutating call) = true ∧
    (syncPage env pm am page).calls = [.findPage (getPagePath env.sep page)] ∧
    (syncAsset aenv m assetId).uploads = 0 ∧
    (syncPage env pm am page).path = getPagePath env.sep page ∧
    (syncPage env pm am page).transformed =
      transformContent am page.markdown page.html := by
  have hcalls : (syncPage env pm am page).calls =
      [.findPage (getPagePath env.sep page)] := by
    cases hf : env.findOutcome <;> simp [syncPage, hf, findWikiJSPage, hdry]
  have huploads : (syncAsset aenv m assetId).uploads = 0 := by
    by_cases hc : truthy (lookupAsset m assetId) = true
    · rw [syncAsset_cached aenv m assetId hc]
    · by_cases hd : aenv.downloadOk = true
      · simp [syncAsset, hc, hd, hadry]
      · simp [syncAsset, hc, hd]
  have hrest : (syncPage env pm am page).path = getPagePath env.sep page ∧
      (syncPage env pm am page).transformed =
        transformContent am page.markdown page.html := by
    cases hf : env.findOutcome <;>
      exact ⟨by simp [syncPage, hf, findWikiJSPage, hdry],
        by simp [syncPage, hf, findWikiJSPage, hdry]⟩
  exact ⟨by rw [hcalls]; rfl, hcalls, huploads, hrest.1, hrest.2⟩

/-- Witness for the dry-run theorem at a concrete page and asset. -/
theorem dryRun_no_mutations_witness :
    (syncPage ⟨"/", true, id, .notFound, some 4, true⟩ [] []
        { id := 3, name := "T", slug := "t", markdown := "b", html := "",
          draft := false, shelfSlug := none, bookSlug := some "bk",
          chapterSlug := none, created_by := 1, updated_by := 2 }).calls.all
      (fun call => !isMutating call) = true ∧
    (syncAsset ⟨true, true, none⟩ [] 7).uploads = 0 := by
  refine ⟨(dryRun_no_mutations ⟨"/", true, id, .notFound, some 4, true⟩ [] []
    { id := 3, name := "T", slug := "t", markdown := "b", html := "",
      draft := false, shelfSlug := none, bookSlug := some "bk",
      chapterSlug := none, created_by := 1, updated_by := 2 }
    ⟨true, true, none⟩ [] 7 rfl rfl).1, ?_⟩
  exact (dryRun_no_mutations ⟨"/", true, id, .notFound, some 4, true⟩ [] []
    { id := 3, name := "T", slug := "t", markdown := "b", html := "",
      draft := false, shelfSlug := none, bookSlug := some "bk",
      chapterSlug := none, created_by := 1, updated_by := 2 }
    ⟨true, true, none⟩ [] 7 rfl rfl).2.2.1

/-- C10: a dry run records the fixed locator `/placeholder.jpg` for every
uncached asset whose download succeeds, increments the assets-uploaded
counter, and the map carrying that entry is exactly what `saveState`
persists; a later non-dry-run call for the same asset then takes the
cached branch and returns the placeholder without any download or
upload. -/
theorem dryRun_placeholder_persisted (env env2 : AssetEnv) (m : AssetMap)
    (assetId : Nat) (now : String) (ls : Option String) (pm : PageMap)
    (um : List (Nat × Nat))
    (hc : truthy (lookupAsset m assetId) = false)
    (hdry : env.dryRun = true) (hdl : env.downloadOk = true) :
    (syncAsset env m assetId).locator = some "/placeholder.jpg" ∧
    (syncAsset env m assetId).assetMap =
      insertAsset m assetId "/placeholder.jpg" ∧
    (syncAsset env m assetId).uploadedDelta = 1 ∧
    (syncAsset env m assetId).uploads = 0 ∧
    (saveState now
        { lastSync := ls, pageMap := pm,
          assetMap := (syncAsset env m assetId).assetMap,
          userMap := um }).assetMap =
      insertAsset m assetId "/placeholder.jpg" ∧
    (syncAsset env2 (syncAsset env m assetId).assetMap assetId).locator =
        some "/placeholder.jpg" ∧
    (syncAsset env2 (syncAsset env m assetId).assetMap assetId).downloads = 0 ∧
    (syncAsset env2 (syncAsset env m assetId).assetMap assetId).uploads = 0 := by
  have hmap : (syncAsset env m assetId).assetMap =
      insertAsset m assetId "/placeholder.jpg" := by
    simp [syncAsset, hc, hdl, hdry]
  have htr : truthy (lookupAsset (syncAsset env m assetId).assetMap assetId) =
      true := by
    rw [hmap, lookupAsset_insertAsset]
    decide
  have h2 := syncAsset_cached env2 (syncAsset env m assetId).assetMap assetId htr
  refine ⟨by simp [syncAsset, hc, hdl, hdry], hmap,
    by simp [syncAsset, hc, hdl, hdry], by simp [syncAsset, hc, hdl, hdry],
    by rw [saveState, hmap], ?_, ?_, ?_⟩
  · rw [h2]
    show lookupAsset (syncAsset env m assetId).assetMap assetId =
      some "/placeholder.jpg"
    rw [hmap, lookupAsset_insertAsset]
  · rw [h2]
  · rw [h2]

/-- Witness for the dry-run placeholder theorem at a concrete asset. -/
theorem dryRun_placeholder_persisted_witness :
    (syncAsset ⟨true, true, none⟩ [] 11).locator = some "/placeholder.jpg" ∧
    (syncAsset ⟨false, true, some "/new.png"⟩
        (syncAsset ⟨true, true, none⟩ [] 11).assetMap 11).locator =
      some "/placeholder.jpg" := by
  have h := dryRun_placeholder_persisted ⟨true, true, none⟩
    ⟨false, true, some "/new.png"⟩ [] 11 "2024-01-01" none [] []
    (by decide) rfl rfl
  exact ⟨h.1, h.2.2.2.2.2.1⟩

theorem takeWhile_append_stop {α : Type} (p : α → Bool) (l1 : List α) (b : α)
    (l2 : List α) (h : ∀ a ∈ l1, p a = true) (hb : p b = false) :
    (l1 ++ b :: l2).takeWhile p = l1 ∧ (l1 ++ b :: l2).dropWhile p = b :: l2 := by
  induction l1 with
  | nil => simp [List.takeWhile_cons, List.dropWhile_cons, hb]
  | cons a t ih =>
    have ha : p a = true := h a (by simp)
    have ht := ih (fun x hx => h x (by simp [hx]))
    simp [List.takeWhile_cons, List.dropWhile_cons, ha, ht.1, ht.2]

theorem expectLit_self (l cs : List Char) : expectLit l (l ++ cs) = some cs := by
  induction l with
  | nil => rfl
  | cons a t ih => simp [expectLit, ih]

theorem matchImageAt_render (alt seg fname rest : List Char)
    (halt : ∀ a ∈ alt, a ≠ ']')
    (hseg : seg ≠ []) (hsegc : ∀ a ∈ seg, a ≠ '/')
    (hf : fname ≠ []) (hfc : ∀ a ∈ fname, a ≠ ')') :
    matchImageAt (['!', '['] ++ alt ++ [']', '('] ++ galleryLit ++ seg ++
      ['/'] ++ fname ++ [')'] ++ rest) = some ⟨alt, seg, fname, rest⟩ := by
  have e1 : ['!', '['] ++ alt ++ [']', '('] ++ galleryLit ++ seg ++ ['/'] ++
      fname ++ [')'] ++ rest =
      '!' :: '[' :: (alt ++ ']' ::
        ('(' :: (galleryLit ++ (seg ++ '/' :: (fname ++ ')' :: rest))))) := by
    simp
  have h1 := takeWhile_append_stop (fun c => decide (c ≠ ']')) alt ']'
    ('(' :: (galleryLit ++ (seg ++ '/' :: (fname ++ ')' :: rest))))
    (fun a ha => by simp [halt a ha]) (by simp)
  have h2 := takeWhile_append_stop (fun c => decide (c ≠ '/')) seg '/'
    (fname ++ ')' :: rest) (fun a ha => by simp [hsegc a ha]) (by simp)
  have h3 := takeWhile_append_stop (fun c => decide (c ≠ ')')) fname ')'
    rest (fun a ha => by simp [hfc a ha]) (by simp)
  rw [e1]
  simp only [matchImageAt, expectChar, if_pos, reduceIte, h1.1, h1.2,
    expectLit_self, h2.1, h2.2, h3.1, h3.2]
  simp [hseg, hf]

theorem matchAttachAt_render (name digits rest : List Char)
    (hn : name ≠ []) (hnc : ∀ a ∈ name, a ≠ ']')
    (hd : digits ≠ []) (hdc : ∀ a ∈ digits, a.isDigit = true) :
    matchAttachAt (['['] ++ name ++ [']', '('] ++ attachLit ++ digits ++
      [')'] ++ rest) = some ⟨name, digits, rest⟩ := by
  have e1 : ['['] ++ name ++ [']', '('] ++ attachLit ++ digits ++ [')'] ++
      rest =
      '[' :: (name ++ ']' :: ('(' :: (attachLit ++ (digits ++ ')' :: rest)))) := by
    simp
  have h1 := takeWhile_append_stop (fun c => decide (c ≠ ']')) name ']'
    ('(' :: (attachLit ++ (digits ++ ')' :: rest)))
    (fun a ha => by simp [hnc a ha]) (by simp)
  have h2 := takeWhile_append_stop Char.isDigit digits ')' rest
    (fun a ha => hdc a ha) (by decide)
  rw [e1]
  simp only [matchAttachAt, expectChar, reduceIte, h1.1, h1.2,
    expectLit_self, h2.1, h2.2]
  simp [hn, hd]

theorem replaceImagesGo_nil (m : AssetMap) (fuel : Nat) :
    replaceImagesGo m fuel [] = [] := by
  cases fuel <;> rfl

theorem replaceAttachGo_nil (m : AssetMap) (fuel : Nat) :
    replaceAttachGo m fuel [] = [] := by
  cases fuel <;> rfl

theorem replaceImagesGo_noMatch (m : AssetMap) :
    ∀ (fuel : Nat) (cs : List Char), hasImageMatchAux cs = false →
      replaceImagesGo m fuel cs = cs := by
  intro fuel
  induction fuel with
  | zero => intro cs _; rfl
  | succ n ih =>
    intro cs h
    cases cs with
    | nil => rfl
    | cons c rest =>
      have h1 : (matchImageAt (c :: rest)).isSome = false ∧
          hasImageMatchAux rest = false := by
        simpa [hasImageMatchAux] using h
      have hm : matchImageAt (c :: rest) = none :=
        Option.not_isSome_iff_eq_none.mp (by simp [h1.1])
      simp [replaceImagesGo, hm, ih rest h1.2]

theorem replaceAttachGo_noMatch (m : AssetMap) :
    ∀ (fuel : Nat) (cs : List Char), hasAttachMatchAux cs = false →
      replaceAttachGo m fuel cs = cs := by
  intro fuel
  induction fuel with
  | zero => intro cs _; rfl
  | succ n ih =>
    intro cs h
    cases cs with
    | nil => rfl
    | cons c rest =>
      have h1 : (matchAttachAt (c :: rest)).isSome = false ∧
          hasAttachMatchAux rest = false := by
        simpa [hasAttachMatchAux] using h
      have hm : matchAttachAt (c :: rest) = none :=
        Option.not_isSome_iff_eq_none.mp (by simp [h1.1])
      simp [replaceAttachGo, hm, ih rest h1.2]

theorem replaceImages_match_head (m : AssetMap) (cs : List Char)
    (im : ImgMatch) (hm : matchImageAt cs = some im) (hafter : im.after = []) :
    replaceImages m cs =
      (match findImageEntry m (String.mk im.fname) with
       | some e => imgReplace im.alt e.2
       | none => imgMatched im) := by
  cases cs with
  | nil => simp [matchImageAt, expectChar] at hm
  | cons c rest =>
    rw [replaceImages]
    simp only [List.length_cons]
    rw [replaceImagesGo, hm]
    simp only [hafter, replaceImagesGo_nil, List.append_nil]

theorem replaceAttach_match_head (m : AssetMap) (cs : List Char)
    (am : AttMatch) (hm : matchAttachAt cs = some am) (hafter : am.after = []) :
    replaceAttach m cs =
      (match lookupAssetStr m (String.mk am.digits) with
       | some loc => if loc.isEmpty then attMatched am else attReplace am.name loc
       | none => attMatched am) := by
  cases cs with
  | nil => simp [matchAttachAt, expectChar] at hm
  | cons c rest =>
    rw [replaceAttach]
    simp only [List.length_cons]
    rw [replaceAttachGo, hm]
    simp only [hafter, replaceAttachGo_nil, List.append_nil]

theorem isEmpty_mk (l : List Char) : (String.mk l).isEmpty = l.isEmpty := by
  cases l with
  | nil => rfl
  | cons c t =>
    show (String.mk (c :: t)).isEmpty = false
    rw [Bool.eq_false_iff]
    intro h
    have h2 := congrArg String.data ((String.isEmpty_iff _).mp h)
    simp at h2

/-- C8: an inline image reference in the source gallery-path convention
whose filename occurs in some `assetMap` locator is rewritten to point at
the locator found by the map scan; an image reference with no matching
entry, and an attachment reference whose id has no (truthy) map entry,
are left character-for-character unchanged; and content containing no
matching reference at all is returned unchanged. -/
theorem transformContent_rewrites (m : AssetMap) (alt seg fname : List Char)
    (halt : ∀ a ∈ alt, a ≠ ']')
    (hseg : seg ≠ []) (hsegc : ∀ a ∈ seg, a ≠ '/')
    (hf : fname ≠ []) (hfc : ∀ a ∈ fname, a ≠ ')') :
    (∀ i loc, findImageEntry m (String.mk fname) = some (i, loc) →
      hasAttachMatchAux (imgReplace alt loc) = false →
      transformContent m (String.mk (imgMatched ⟨alt, seg, fname, []⟩)) "" =
        String.mk (imgReplace alt loc)) ∧
    (findImageEntry m (String.mk fname) = none →
      hasAttachMatchAux (imgMatched ⟨alt, seg, fname, []⟩) = false →
      transformContent m (String.mk (imgMatched ⟨alt, seg, fname, []⟩)) "" =
        String.mk (imgMatched ⟨alt, seg, fname, []⟩)) ∧
    (∀ name digits : List Char, name ≠ [] → (∀ a ∈ name, a ≠ ']') →
      digits ≠ [] → (∀ a ∈ digits, a.isDigit = true) →
      truthy (lookupAssetStr m (String.mk digits)) = false →
      hasImageMatchAux (attMatched ⟨name, digits, []⟩) = false →
      transformContent m (String.mk (attMatched ⟨name, digits, []⟩)) "" =
        String.mk (attMatched ⟨name, digits, []⟩)) ∧
    (∀ s : String, s.isEmpty = false → hasImageMatchAux s.data = false →
      hasAttachMatchAux s.data = false → transformContent m s "" = s) := by
  have hmatch : matchImageAt (imgMatched ⟨alt, seg, fname, []⟩) =
      some ⟨alt, seg, fname, []⟩ := by
    have h := matchImageAt_render alt seg fname [] halt hseg hsegc hf hfc
    simpa [imgMatched] using h
  have hrefne : (String.mk (imgMatched ⟨alt, seg, fname, []⟩)).isEmpty = false := by
    rw [isEmpty_mk]; rfl
  have himg := replaceImages_match_head m (imgMatched ⟨alt, seg, fname, []⟩)
    ⟨alt, seg, fname, []⟩ hmatch rfl
  refine ⟨?_, ?_, ?_, ?_⟩
  · intro i loc hfind hnoatt
    simp only [transformContent, hrefne, Bool.false_eq_true, if_false]
    show String.mk (replaceAttach m
      (replaceImages m (imgMatched ⟨alt, seg, fname, []⟩))) =
        String.mk (imgReplace alt loc)
    rw [himg]
    simp only [hfind]
    rw [replaceAttach, replaceAttachGo_noMatch m _ _ hnoatt]
  · intro hfind hnoatt
    simp only [transformContent, hrefne, Bool.false_eq_true, if_false]
    show String.mk (replaceAttach m
      (replaceImages m (imgMatched ⟨alt, seg, fname, []⟩))) =
        String.mk (imgMatched ⟨alt, seg, fname, []⟩)
    rw [himg]
    simp only [hfind]
    rw [replaceAttach, replaceAttachGo_noMatch m _ _ hnoatt]
  · intro name digits hn hnc hd hdc htruthy hnoimg
    have hamatch : matchAttachAt (attMatched ⟨name, digits, []⟩) =
        some ⟨name, digits, []⟩ := by
      have h := matchAttachAt_render name digits [] hn hnc hd hdc
      simpa [attMatched] using h
    have hane : (String.mk (attMatched ⟨name, digits, []⟩)).isEmpty = false := by
      rw [isEmpty_mk]; rfl
    simp only [transformContent, hane, Bool.false_eq_true, if_false]
    show String.mk (replaceAttach m
      (replaceImages m (attMatched ⟨name, digits, []⟩))) =
        String.mk (attMatched ⟨name, digits, []⟩)
    rw [replaceImages, replaceImagesGo_noMatch m _ _ hnoimg]
    rw [replaceAttach_match_head m _ ⟨name, digits, []⟩ hamatch rfl]
    cases hl : lookupAssetStr m (String.mk digits) with
    | none => rfl
    | some loc =>
      rw [hl] at htruthy
      simp only [truthy, Bool.not_eq_false'] at htruthy
      simp [htruthy]
  · intro s hne hnoimg hnoatt
    simp only [transformContent, hne, Bool.false_eq_true, if_false]
    show String.mk (replaceAttach m (replaceImages m s.data)) = s
    rw [replaceImages, replaceImagesGo_noMatch m _ _ hnoimg,
      replaceAttach, replaceAttachGo_noMatch m _ _ hnoatt]

/-- Witness for the content-transformation theorem at the spec's
round-trip example: `![alt](/uploads/images/gallery/2024-01/foo.png)`
rewrites to `![alt](/x/foo.png)` when the map holds a locator containing
`foo.png`, and is returned unchanged when the map is empty. -/
theorem transformContent_rewrites_witness :
    transformContent [(7, "/x/foo.png")]
        "![alt](/uploads/images/gallery/2024-01/foo.png)" "" =
      "![alt](/x/foo.png)" ∧
    transformContent []
        "![alt](/uploads/images/gallery/2024-01/foo.png)" "" =
      "![alt](/uploads/images/gallery/2024-01/foo.png)" := by
  have heq : String.mk (imgMatched
      ⟨"alt".data, "2024-01".data, "foo.png".data, []⟩) =
      "![alt](/uploads/images/gallery/2024-01/foo.png)" := by decide
  constructor
  · have ha := (transformContent_rewrites [(7, "/x/foo.png")] "alt".data
      "2024-01".data "foo.png".data (by decide) (by decide) (by decide)
      (by decide) (by decide)).1 7 "/x/foo.png" (by decide) (by decide)
    rw [heq] at ha
    rw [ha]
    decide
  · have hb := (transformContent_rewrites [] "alt".data
      "2024-01".data "foo.png".data (by decide) (by decide) (by decide)
      (by decide) (by decide)).2.1 (by decide) (by decide)
    rw [heq] at hb
    exact hb
